import Mathlib

/-
Verification of the channel resolution and video ingestion pipeline of the
YouTube tracker application (src/app.py), over a shallow embedding.

Strings are modelled as lists of characters (`Str`).  Network interaction is
modelled by explicit oracles: a page fetcher `Str → Option HttpResponse`
(`none` models a raised request exception, which the code swallows) and data
oracles for the two JSON API endpoints and the XML upload feed, carrying the
fields the code actually reads.  The SQLite store is modelled as two lists of
rows; the per-statement behaviour (duplicate primary keys raising
`IntegrityError`, which the code catches) is modelled by explicit presence
checks.  `datetime.now` is modelled by passing the produced timestamp string
as an argument.
-/

namespace VideoAgent

/-- Str models a Python `str` as a list of characters. -/
abbrev Str := List Char

/-- pyWs models membership in the ASCII whitespace set stripped by Python
`str.strip()` (space, tab, newline, carriage return, vertical tab, form feed). -/
def pyWs (c : Char) : Bool :=
  decide (c.toNat = 32) || decide (c.toNat = 9) || decide (c.toNat = 10) ||
  decide (c.toNat = 13) || decide (c.toNat = 11) || decide (c.toNat = 12)

/-- pyStrip models Python `str.strip()`: drop leading and trailing whitespace. -/
def pyStrip (l : Str) : Str :=
  ((l.dropWhile pyWs).reverse.dropWhile pyWs).reverse

/-- isIdChar models the regex character class `[0-9A-Za-z_-]` from
`is_channel_id` (src/app.py line 221). -/
def isIdChar (c : Char) : Bool :=
  decide (48 ≤ c.toNat ∧ c.toNat ≤ 57) || decide (65 ≤ c.toNat ∧ c.toNat ≤ 90) ||
  decide (97 ≤ c.toNat ∧ c.toNat ≤ 122) || decide (c.toNat = 95) || decide (c.toNat = 45)

/-- is_channel_id embeds `is_channel_id` (src/app.py lines 220-221):
`re.fullmatch(r"UC[0-9A-Za-z_-]{22}", text.strip())` as a boolean. -/
def is_channel_id (text : Str) : Bool :=
  match pyStrip text with
  | 'U' :: 'C' :: rest => decide (rest.length = 22) && rest.all isIdChar
  | _ => false

/-- specCanonicalId is the claim wording of the canonical channel-ID syntax
(for comparison with the code): the literal characters `U`, `C` followed by
exactly 22 characters from the class, with no trimming of the tested string. -/
def specCanonicalId (s : Str) : Bool :=
  match s with
  | 'U' :: 'C' :: rest => decide (rest.length = 22) && rest.all isIdChar
  | _ => false

lemma isIdChar_not_ws (c : Char) (h : isIdChar c = true) : pyWs c = false := by
  simp only [isIdChar, Bool.or_eq_true, decide_eq_true_eq] at h
  simp only [pyWs, Bool.or_eq_false_iff, decide_eq_false_iff_not]
  omega

lemma dropWhile_head_false {p : Char → Bool} :
    ∀ (l : Str) (x : Char), (List.dropWhile p l).head? = some x → p x = false := by
  intro l
  induction l with
  | nil => intro x hx; simp [List.dropWhile] at hx
  | cons a t ih =>
    intro x hx
    by_cases ha : p a
    · rw [List.dropWhile_cons, if_pos ha] at hx
      exact ih x hx
    · rw [List.dropWhile_cons, if_neg ha] at hx
      simp at hx
      subst hx
      simpa using ha

lemma dropWhile_eq_self_of {p : Char → Bool} (l : Str)
    (h : ∀ x, l.head? = some x → p x = false) : List.dropWhile p l = l := by
  cases l with
  | nil => simp
  | cons a t =>
    have ha : p a = false := h a rfl
    simp [List.dropWhile_cons, ha]

lemma dropWhile_eq_self_of_all {p : Char → Bool} (l : Str)
    (h : ∀ x ∈ l, p x = false) : List.dropWhile p l = l := by
  apply dropWhile_eq_self_of
  intro x hx
  cases l with
  | nil => simp at hx
  | cons a t =>
    simp at hx
    exact h x (hx ▸ List.mem_cons_self a t)

/-- pyStrip of a string with no whitespace characters is the string itself. -/
lemma pyStrip_eq_self (l : Str) (h : ∀ c ∈ l, pyWs c = false) : pyStrip l = l := by
  unfold pyStrip
  rw [dropWhile_eq_self_of_all l h]
  rw [dropWhile_eq_self_of_all l.reverse (fun c hc => h c (List.mem_reverse.mp hc))]
  exact List.reverse_reverse l

lemma dropWhile_suffix_my {p : Char → Bool} (l : Str) : (List.dropWhile p l) <:+ l := by
  induction l with
  | nil => simp
  | cons a t ih =>
    by_cases ha : p a
    · rw [List.dropWhile_cons, if_pos ha]
      exact ih.trans (List.suffix_cons a t)
    · rw [List.dropWhile_cons, if_neg ha]

lemma prefix_head_eq {l₁ l₂ : Str} (h : l₁ <+: l₂) (hne : l₁ ≠ []) :
    l₂.head? = l₁.head? := by
  rcases h with ⟨t, rfl⟩
  cases l₁ with
  | nil => exact absurd rfl hne
  | cons a s => simp

/-- pyStrip is idempotent. -/
lemma pyStrip_idem (l : Str) : pyStrip (pyStrip l) = pyStrip l := by
  set m := List.dropWhile pyWs l with hm
  set q := List.dropWhile pyWs m.reverse with hq
  have hr : pyStrip l = q.reverse := rfl
  -- the stripped string is a prefix of m, whose head is not whitespace
  have hqsuff : q <:+ m.reverse := dropWhile_suffix_my m.reverse
  have hqpre : q.reverse <+: m := by
    have := List.reverse_prefix.mpr hqsuff
    simpa using this
  have hhead : ∀ x, q.reverse.head? = some x → pyWs x = false := by
    intro x hx
    have hne : q.reverse ≠ [] := by
      intro hcon; rw [hcon] at hx; simp at hx
    have : m.head? = q.reverse.head? := prefix_head_eq hqpre hne
    exact dropWhile_head_false l x (by rw [← hm, this, hx])
  have h1 : List.dropWhile pyWs q.reverse = q.reverse := dropWhile_eq_self_of _ hhead
  have h2 : List.dropWhile pyWs q = q := by
    apply dropWhile_eq_self_of
    intro x hx
    exact dropWhile_head_false m.reverse x (by rw [← hq, hx])
  show pyStrip q.reverse = q.reverse
  unfold pyStrip
  rw [h1, List.reverse_reverse, h2]

/-- The validator is insensitive to pre-stripping its argument. -/
lemma is_channel_id_pyStrip (t : Str) : is_channel_id (pyStrip t) = is_channel_id t := by
  unfold is_channel_id
  rw [pyStrip_idem]

/-- A string of shape `UC` + 22 identifier characters passes the validator. -/
lemma is_channel_id_of_shape (rest : Str) (h22 : rest.length = 22)
    (hall : rest.all isIdChar = true) : is_channel_id ('U' :: 'C' :: rest) = true := by
  have hws : ∀ c ∈ 'U' :: 'C' :: rest, pyWs c = false := by
    intro c hc
    rcases List.mem_cons.mp hc with h | hc
    · subst h; decide
    rcases List.mem_cons.mp hc with h | hc
    · subst h; decide
    · exact isIdChar_not_ws c (List.all_eq_true.mp hall c hc)
  unfold is_channel_id
  rw [pyStrip_eq_self _ hws]
  simp [h22, hall]

/-! URL parsing utilities, modelling the parts of `urllib.parse` and `re`
that `extract_channel_id_from_url` and `resolve_channel_id` use. -/

/-- strStartsWith models Python `str.startswith` (second argument the pattern). -/
def strStartsWith : Str → Str → Bool
  | _, [] => true
  | [], _ :: _ => false
  | c :: s, p :: ps => c == p && strStartsWith s ps

/-- strContains models the Python `in` test for substrings: `strContains s pat`
is true iff `pat` occurs in `s`. -/
def strContains : Str → Str → Bool
  | [], pat => strStartsWith [] pat
  | c :: rest, pat => strStartsWith (c :: rest) pat || strContains rest pat

/-- strEndsWith models Python `str.endswith`. -/
def strEndsWith (s suf : Str) : Bool :=
  strStartsWith s.reverse suf.reverse

/-- rstripSlash models Python `str.rstrip("/")`. -/
def rstripSlash (s : Str) : Str :=
  (s.reverse.dropWhile (fun c => c == '/')).reverse

/-- splitChar models Python `str.split(sep)` for a one-character separator
with no maxsplit (so `"".split(sep) = [""]`). -/
def splitChar (sep : Char) : Str → List Str
  | [] => [[]]
  | c :: rest =>
    if c = sep then [] :: splitChar sep rest
    else
      match splitChar sep rest with
      | h :: t => (c :: h) :: t
      | [] => [[c]]

/-- splitFirstEq models `name_value.split("=", 1)`: `none` when there is no
`=`, otherwise the parts before and after the first `=`. -/
def splitFirstEq : Str → Option (Str × Str)
  | [] => none
  | c :: r =>
    if c = '=' then some ([], r)
    else (splitFirstEq r).map (fun p => (c :: p.1, p.2))

/-- isHexDigit recognises the hexadecimal digits accepted by `unquote`. -/
def isHexDigit (c : Char) : Bool :=
  decide (48 ≤ c.toNat ∧ c.toNat ≤ 57) || decide (65 ≤ c.toNat ∧ c.toNat ≤ 70) ||
  decide (97 ≤ c.toNat ∧ c.toNat ≤ 102)

/-- hexVal gives the value of a hexadecimal digit. -/
def hexVal (c : Char) : Nat :=
  if 48 ≤ c.toNat ∧ c.toNat ≤ 57 then c.toNat - 48
  else if 65 ≤ c.toNat ∧ c.toNat ≤ 70 then c.toNat - 55
  else if 97 ≤ c.toNat ∧ c.toNat ≤ 102 then c.toNat - 87
  else 0

/-- unquote models `urllib.parse.unquote` restricted to single-byte (ASCII)
percent escapes: `%XX` with two hex digits decodes to the byte value, any
malformed escape is left verbatim.  Multi-byte UTF-8 escape sequences are out
of scope of the claims considered here. -/
def unquote : Str → Str
  | [] => []
  | '%' :: a :: b :: rest =>
    if isHexDigit a = true ∧ isHexDigit b = true then
      Char.ofNat (16 * hexVal a + hexVal b) :: unquote rest
    else '%' :: unquote (a :: b :: rest)
  | c :: rest => c :: unquote rest

/-- unquotePlus models the value decoding done by `parse_qsl`:
replace `+` by space, then percent-decode. -/
def unquotePlus (s : Str) : Str :=
  unquote (s.map (fun c => if c = '+' then ' ' else c))

/-- parse_qsl models `urllib.parse.parse_qsl` with default options
(`keep_blank_values=False`): split the query on `&`, skip empty fields,
skip fields with no `=` or an empty value, and decode names and values. -/
def parse_qsl (q : Str) : List (Str × Str) :=
  (splitChar '&' q).filterMap (fun field =>
    if field = [] then none
    else
      match splitFirstEq field with
      | none => none
      | some (n, v) => if v = [] then none else some (unquotePlus n, unquotePlus v))

/-- urlQuery models the query component extracted by `urllib.parse.urlparse`:
the part after the first `?` of the part before the first `#`. -/
def urlQuery (url : Str) : Str :=
  afterQM (url.takeWhile (fun c => c ≠ '#'))
where
  afterQM : Str → Str
    | [] => []
    | c :: rest => if c = '?' then rest else afterQM rest

/-- dropLit strips a literal pattern from the front of a string, or fails. -/
def dropLit : Str → Str → Option Str
  | [], s => some s
  | _ :: _, [] => none
  | c :: pat, x :: s => if x = c then dropLit pat s else none

/-- tryChannelPath matches the regex `/channel/(UC[0-9A-Za-z_-]{22})` anchored
at the start of the string, returning the captured group. -/
def tryChannelPath (s : Str) : Option Str :=
  match dropLit ("/channel/").toList s with
  | none => none
  | some r =>
    match r with
    | 'U' :: 'C' :: t =>
      if (t.take 22).length = 22 ∧ (t.take 22).all isIdChar = true then
        some ('U' :: 'C' :: t.take 22)
      else none
    | _ => none

/-- searchChannelPath models `re.search(r"/channel/(UC[0-9A-Za-z_-]{22})", url)`:
the leftmost match of the pattern. -/
def searchChannelPath : Str → Option Str
  | [] => none
  | c :: rest =>
    match tryChannelPath (c :: rest) with
    | some cid => some cid
    | none => searchChannelPath rest

/-- qsLookupChannel models `qs["channel"][0]` on the association list built by
`parse_qsl` (first pair named `channel`), with `none` when `"channel" not in qs`. -/
def qsLookupChannel (pairs : List (Str × Str)) : Option Str :=
  (pairs.find? (fun p => p.1 == ("channel").toList)).map (fun p => p.2)

/-- extract_channel_id_from_url embeds `extract_channel_id_from_url`
(src/app.py lines 224-236): first the `/channel/UC...` regex, then the
`channel` query parameter validated by `is_channel_id`; `""` on failure. -/
def extract_channel_id_from_url (url : Str) : Str :=
  match searchChannelPath url with
  | some cid => cid
  | none =>
    match qsLookupChannel (parse_qsl (urlQuery url)) with
    | some cid => if is_channel_id cid = true then cid else []
    | none => []

/-! The resolver (src/app.py lines 239-300). -/

/-- HttpResponse models the parts of a `requests` response the resolver reads. -/
structure HttpResponse where
  status : Nat
  body : Str

/-- tryMarker matches the regex `"channelId":"(UC[0-9A-Za-z_-]{22})"` anchored
at the start of the string (note the closing quote), returning the capture. -/
def tryMarker (s : Str) : Option Str :=
  match dropLit ("\"channelId\":\"").toList s with
  | none => none
  | some r =>
    match r with
    | 'U' :: 'C' :: t =>
      if (t.take 22).length = 22 ∧ (t.take 22).all isIdChar = true ∧
          (t.drop 22).head? = some '"' then
        some ('U' :: 'C' :: t.take 22)
      else none
    | _ => none

/-- scanBody models `re.search` of the `channelId` marker over a page body. -/
def scanBody : Str → Option Str
  | [] => none
  | c :: rest =>
    match tryMarker (c :: rest) with
    | some cid => some cid
    | none => scanBody rest

/-- ytInfix models the stage-2 guard
`"youtube.com" in text or "youtu.be" in text`. -/
def ytInfix (text : Str) : Bool :=
  strContains text ("youtube.com").toList || strContains text ("youtu.be").toList

/-- candidate_urls embeds the candidate page-URL construction of
`resolve_channel_id` (src/app.py lines 252-267), by input shape. -/
def candidate_urls (text : Str) : List Str :=
  if text.head? = some '@' then
    [("https://www.youtube.com/").toList ++ text,
     ("https://www.youtube.com/").toList ++ text ++ ("/about").toList]
  else if strContains text ("youtube.com").toList = true then
    let t := if strStartsWith text ("http").toList = true then text
             else ("https://").toList ++ text
    if strEndsWith t ("/about").toList = true then [t]
    else [t, rstripSlash t ++ ("/about").toList]
  else
    [("https://www.youtube.com/@").toList ++ text,
     ("https://www.youtube.com/@").toList ++ text ++ ("/about").toList,
     ("https://www.youtube.com/c/").toList ++ text,
     ("https://www.youtube.com/user/").toList ++ text]

/-- scanLoop models the page-scraping loop of `resolve_channel_id`
(src/app.py lines 269-277): try each candidate URL in order, returning the
first embedded channel id found; the second component instruments the
`requests.get` calls actually issued (exceptions and non-200 responses are
non-fatal). -/
def scanLoop (net : Str → Option HttpResponse) : List Str → Option Str × List Str
  | [] => (none, [])
  | u :: rest =>
    match net u with
    | some r =>
      if r.status = 200 then
        match scanBody r.body with
        | some cid => (some cid, [u])
        | none => ((scanLoop net rest).1, u :: (scanLoop net rest).2)
      else ((scanLoop net rest).1, u :: (scanLoop net rest).2)
    | none => ((scanLoop net rest).1, u :: (scanLoop net rest).2)

/-- resolve_channel_id embeds `resolve_channel_id` (src/app.py lines 239-300).
`net` is the page oracle; `apiSearch` models the search API result: `none` for
a raised-and-swallowed failure or no `items`, otherwise the list of items,
each reduced to its `id.channelId` field.  The first component is the returned
string (`[]` is the unresolved result); the second instruments the
`requests.get` calls performed. -/
def resolve_channel_id (input_text yt_api_key : Str)
    (net : Str → Option HttpResponse) (apiSearch : Option (List (Option Str))) :
    Str × List Str :=
  let text := pyStrip input_text
  if is_channel_id text = true then (text, [])
  else if ytInfix text = true ∧ extract_channel_id_from_url text ≠ [] then
    (extract_channel_id_from_url text, [])
  else
    let cands := candidate_urls text
    match scanLoop net cands with
    | (some cid, tried) => (cid, tried)
    | (none, tried) =>
      if yt_api_key ≠ [] then
        match apiSearch with
        | some (some cid :: _) =>
          if cid ≠ [] ∧ is_channel_id cid = true then
            (cid, tried ++ [("https://www.googleapis.com/youtube/v3/search").toList])
          else ([], tried ++ [("https://www.googleapis.com/youtube/v3/search").toList])
        | _ => ([], tried ++ [("https://www.googleapis.com/youtube/v3/search").toList])
      else ([], tried)

/-! Well-formedness of every identifier the resolver can emit. -/

lemma tryChannelPath_valid (s cid : Str) (h : tryChannelPath s = some cid) :
    is_channel_id cid = true := by
  unfold tryChannelPath at h
  split at h
  · exact absurd h (by simp)
  next r hdrop =>
    split at h
    next t =>
      split at h
      next hcond =>
        cases h
        exact is_channel_id_of_shape _ hcond.1 hcond.2
      · exact absurd h (by simp)
    · exact absurd h (by simp)

lemma searchChannelPath_valid :
    ∀ (s cid : Str), searchChannelPath s = some cid → is_channel_id cid = true := by
  intro s
  induction s with
  | nil => intro cid h; simp [searchChannelPath] at h
  | cons c rest ih =>
    intro cid h
    unfold searchChannelPath at h
    split at h
    next cid2 htr =>
      cases h
      exact tryChannelPath_valid _ _ htr
    · exact ih cid h

lemma tryMarker_valid (s cid : Str) (h : tryMarker s = some cid) :
    is_channel_id cid = true := by
  unfold tryMarker at h
  split at h
  · exact absurd h (by simp)
  next r hdrop =>
    split at h
    next t =>
      split at h
      next hcond =>
        cases h
        exact is_channel_id_of_shape _ hcond.1 hcond.2.1
      · exact absurd h (by simp)
    · exact absurd h (by simp)

lemma scanBody_valid :
    ∀ (s cid : Str), scanBody s = some cid → is_channel_id cid = true := by
  intro s
  induction s with
  | nil => intro cid h; simp [scanBody] at h
  | cons c rest ih =>
    intro cid h
    unfold scanBody at h
    split at h
    next cid2 htr =>
      cases h
      exact tryMarker_valid _ _ htr
    · exact ih cid h

lemma scanLoop_valid (net : Str → Option HttpResponse) :
    ∀ (us : List Str) (cid : Str), (scanLoop net us).1 = some cid →
      is_channel_id cid = true := by
  intro us
  induction us with
  | nil => intro cid h; simp [scanLoop] at h
  | cons u rest ih =>
    intro cid h
    unfold scanLoop at h
    cases hn : net u with
    | none =>
      rw [hn] at h
      exact ih cid h
    | some r =>
      rw [hn] at h
      dsimp only at h
      by_cases hst : r.status = 200
      · rw [if_pos hst] at h
        cases hb : scanBody r.body with
        | none => rw [hb] at h; exact ih cid h
        | some cid2 =>
          rw [hb] at h
          simp at h
          exact h ▸ scanBody_valid _ _ hb
      · rw [if_neg hst] at h
        exact ih cid h

lemma scanLoop_allFail (net : Str → Option HttpResponse) (hnet : ∀ u, net u = none) :
    ∀ us : List Str, scanLoop net us = (none, us) := by
  intro us
  induction us with
  | nil => simp [scanLoop]
  | cons u rest ih => simp [scanLoop, hnet u, ih]

lemma extract_channel_id_valid (url : Str) :
    extract_channel_id_from_url url = [] ∨
      is_channel_id (extract_channel_id_from_url url) = true := by
  unfold extract_channel_id_from_url
  cases hs : searchChannelPath url with
  | some cid => exact Or.inr (searchChannelPath_valid _ _ hs)
  | none =>
    cases hq : qsLookupChannel (parse_qsl (urlQuery url)) with
    | none => exact Or.inl rfl
    | some cid =>
      dsimp only
      by_cases hid : is_channel_id cid = true
      · rw [if_pos hid]; exact Or.inr hid
      · rw [if_neg hid]; exact Or.inl rfl

/-- Claim C1 (amended): every value `resolve_channel_id` returns, whatever the
input and network behaviour, is either the empty (unresolved) result or a
string accepted by the validator `is_channel_id` — i.e. canonical after
trimming surrounding whitespace.  (As stated the claim fails: see
`resolve_channel_id_whitespace_cid` — the string taken verbatim from a URL
query parameter may carry whitespace.) -/
theorem resolve_channel_id_returns_validated (input key : Str)
    (net : Str → Option HttpResponse) (apiS : Option (List (Option Str))) :
    (resolve_channel_id input key net apiS).1 = [] ∨
      is_channel_id (resolve_channel_id input key net apiS).1 = true := by
  unfold resolve_channel_id
  by_cases h1 : is_channel_id (pyStrip input) = true
  · rw [if_pos h1]
    exact Or.inr h1
  · rw [if_neg h1]
    by_cases h2 : ytInfix (pyStrip input) = true ∧
        extract_channel_id_from_url (pyStrip input) ≠ []
    · rw [if_pos h2]
      rcases extract_channel_id_valid (pyStrip input) with hempty | hvalid
      · exact absurd hempty h2.2
      · exact Or.inr hvalid
    · rw [if_neg h2]
      dsimp only
      rcases hp : scanLoop net (candidate_urls (pyStrip input)) with ⟨res, tried⟩
      cases res with
      | some cid =>
        dsimp only
        exact Or.inr (scanLoop_valid net _ cid (by rw [hp]))
      | none =>
        dsimp only
        by_cases hkey : key ≠ []
        · rw [if_pos hkey]
          cases apiS with
          | none => exact Or.inl rfl
          | some items =>
            cases items with
            | nil => exact Or.inl rfl
            | cons it rest =>
              cases it with
              | none => exact Or.inl rfl
              | some cid =>
                dsimp only
                by_cases hc : cid ≠ [] ∧ is_channel_id cid = true
                · rw [if_pos hc]; exact Or.inr hc.2
                · rw [if_neg hc]; exact Or.inl rfl
        · rw [if_neg hkey]; exact Or.inl rfl

/-- Claim C1 counterexample: on the input
`youtube.com/?channel=UCaaaaaaaaaaaaaaaaaaaaaa+` (no network involved), the
resolver returns the query-parameter value verbatim — a 25-character string
with a trailing space, which is non-empty and does not satisfy the canonical
channel-ID syntax the claim states. -/
theorem resolve_channel_id_whitespace_cid :
    (resolve_channel_id ("youtube.com/?channel=UCaaaaaaaaaaaaaaaaaaaaaa+").toList
        [] (fun _ => none) none).1 = ("UCaaaaaaaaaaaaaaaaaaaaaa ").toList ∧
    (resolve_channel_id ("youtube.com/?channel=UCaaaaaaaaaaaaaaaaaaaaaa+").toList
        [] (fun _ => none) none).1 ≠ [] ∧
    specCanonicalId (resolve_channel_id
        ("youtube.com/?channel=UCaaaaaaaaaaaaaaaaaaaaaa+").toList
        [] (fun _ => none) none).1 = false := by
  refine ⟨by decide, by decide, by decide⟩

/-- Claim C6 (amended): on any input accepted by the validator (which trims
surrounding whitespace) the resolver returns the whitespace-stripped input —
hence the input unchanged whenever it carries no surrounding whitespace — and
performs zero network calls (the instrumented request trace is empty). -/
theorem resolve_channel_id_canonical (input key : Str)
    (net : Str → Option HttpResponse) (apiS : Option (List (Option Str)))
    (h : is_channel_id input = true) :
    resolve_channel_id input key net apiS = (pyStrip input, []) := by
  unfold resolve_channel_id
  rw [if_pos ((is_channel_id_pyStrip input).trans h)]

/-- Claim C6 witness: a canonical ID with no surrounding whitespace comes back
unchanged, with no network calls. -/
theorem resolve_channel_id_canonical_witness :
    resolve_channel_id ("UC1234567890123456789012").toList []
        (fun _ => none) none = (("UC1234567890123456789012").toList, []) :=
  (resolve_channel_id_canonical ("UC1234567890123456789012").toList []
    (fun _ => none) none (by decide)).trans (by decide)

/-- Claim C6 counterexample: the input `" UC1234567890123456789012"` is valid
per the validator (which trims), but the resolver does not return it
unchanged — it returns the stripped string. -/
theorem resolve_channel_id_strips_input :
    is_channel_id (" UC1234567890123456789012").toList = true ∧
    (resolve_channel_id (" UC1234567890123456789012").toList []
        (fun _ => none) none).1 ≠ (" UC1234567890123456789012").toList ∧
    (resolve_channel_id (" UC1234567890123456789012").toList []
        (fun _ => none) none).1 = ("UC1234567890123456789012").toList := by
  refine ⟨by decide, by decide, by decide⟩

/-- Claim C7 (amended): when stage 1-2 of resolution do not produce an ID and
every page fetch fails, the resolver tries exactly `candidate_urls` of the
stripped input, in order; the candidate list is: for inputs starting with `@`,
the handle page then its about page; for inputs containing `youtube.com`, the
(https-prefixed if needed) URL and — only when it does not already end in
`/about` — additionally the about variant with trailing slashes stripped; for
every other input the four fixed candidates `@name`, `@name/about`, the legacy
`/c/` path and the legacy `/user/` path.  (As stated the claim fails for URL
inputs already ending in `/about`: see `resolve_about_url_single_candidate`.) -/
theorem resolve_candidate_urls (input : Str)
    (net : Str → Option HttpResponse) (apiS : Option (List (Option Str)))
    (h1 : is_channel_id (pyStrip input) = false)
    (h2 : ytInfix (pyStrip input) = true →
      extract_channel_id_from_url (pyStrip input) = [])
    (hnet : ∀ u, net u = none) :
    (resolve_channel_id input [] net apiS).2 = candidate_urls (pyStrip input) ∧
    (∀ text : Str, text.head? = some '@' →
      candidate_urls text =
        [("https://www.youtube.com/").toList ++ text,
         ("https://www.youtube.com/").toList ++ text ++ ("/about").toList]) ∧
    (∀ text : Str, text.head? ≠ some '@' →
      strContains text ("youtube.com").toList = true →
      candidate_urls text =
        (let t := if strStartsWith text ("http").toList = true then text
                  else ("https://").toList ++ text
         if strEndsWith t ("/about").toList = true then [t]
         else [t, rstripSlash t ++ ("/about").toList])) ∧
    (∀ text : Str, text.head? ≠ some '@' →
      strContains text ("youtube.com").toList = false →
      candidate_urls text =
        [("https://www.youtube.com/@").toList ++ text,
         ("https://www.youtube.com/@").toList ++ text ++ ("/about").toList,
         ("https://www.youtube.com/c/").toList ++ text,
         ("https://www.youtube.com/user/").toList ++ text]) := by
  refine ⟨?_, ?_, ?_, ?_⟩
  · unfold resolve_channel_id
    rw [if_neg (by simp [h1])]
    rw [if_neg (by
      rintro ⟨hyt, hex⟩
      exact hex (h2 hyt))]
    dsimp only
    rw [scanLoop_allFail net hnet (candidate_urls (pyStrip input))]
    simp
  · intro text ht
    unfold candidate_urls
    rw [if_pos ht]
  · intro text ht hc
    unfold candidate_urls
    rw [if_neg ht, if_pos hc]
  · intro text ht hc
    unfold candidate_urls
    rw [if_neg ht, if_neg (by rw [hc]; simp)]

/-- Claim C7 witness: for a non-URL free-form name with all fetches failing,
the resolver tries exactly the four conventional URLs in order. -/
theorem resolve_candidate_urls_witness :
    (resolve_channel_id ("veritasium").toList [] (fun _ => none) none).2 =
      [("https://www.youtube.com/@veritasium").toList,
       ("https://www.youtube.com/@veritasium/about").toList,
       ("https://www.youtube.com/c/veritasium").toList,
       ("https://www.youtube.com/user/veritasium").toList] := by
  have h := (resolve_candidate_urls ("veritasium").toList (fun _ => none) none
    (by decide) (by intro h; exact absurd h (by decide)) (fun u => rfl)).1
  rw [h]
  decide

/-- Claim C7 counterexample: an input that is already a full URL ending in
`/about` yields a single candidate — the URL itself — not the URL followed by
its about variant as the claim states (the trace has one entry, not two). -/
theorem resolve_about_url_single_candidate :
    (resolve_channel_id ("https://www.youtube.com/c/x/about").toList []
        (fun _ => none) none).2 =
      [("https://www.youtube.com/c/x/about").toList] ∧
    ((resolve_channel_id ("https://www.youtube.com/c/x/about").toList []
        (fun _ => none) none).2).length = 1 := by
  refine ⟨by decide, by decide⟩

/-! The metadata fetcher `get_channel_title` (src/app.py lines 303-338). -/

/-- removeTopic models Python `title.replace(" - Topic", "")`: remove every
(non-overlapping, left-to-right) occurrence of the eight-character pattern. -/
def removeTopic : Str → Str
  | ' ' :: '-' :: ' ' :: 'T' :: 'o' :: 'p' :: 'i' :: 'c' :: rest => removeTopic rest
  | c :: rest => c :: removeTopic rest
  | [] => []

/-- FeedMeta models the feed-level fields `get_channel_title` reads from the
parsed upload feed: the `author/name` node and the feed `title` node, each as
presence of the node paired with its (possibly absent) text. -/
structure FeedMeta where
  author : Option (Option Str)
  feedTitle : Option (Option Str)
deriving DecidableEq

/-- FeedResp models the HTTP response carrying the feed: a status code and the
parse outcome (`none` models `ET.fromstring` raising). -/
structure FeedResp where
  status : Nat
  doc : Option FeedMeta
deriving DecidableEq

/-- titleFromFeedTitle models the feed-level-title fallback inside
`get_channel_title`: if the feed title node exists with truthy text, use the
text with every ` - Topic` occurrence removed, else leave the title empty. -/
def titleFromFeedTitle (doc : FeedMeta) : Str :=
  match doc.feedTitle with
  | some (some t) => if t ≠ [] then removeTopic t else []
  | _ => []

/-- get_channel_title embeds `get_channel_title` (src/app.py lines 303-338).
`apiO` models the channels-endpoint call: `none` for a swallowed failure,
otherwise the `items` list, each item reduced to the string produced by
`items[i].get("snippet", {}).get("title", "") or ""`.  `feedO` models the feed
request (`none` a swallowed request failure). -/
def get_channel_title (channel_id yt_api_key : Str)
    (apiO : Option (List Str)) (feedO : Option FeedResp) : Str :=
  let apiHit : Option Str :=
    if yt_api_key ≠ [] then
      match apiO with
      | some (t :: _) => some t
      | _ => none
    else none
  match apiHit with
  | some t => t
  | none =>
    let title : Str :=
      match feedO with
      | some resp =>
        if resp.status = 200 then
          match resp.doc with
          | some doc =>
            match doc.author with
            | some (some a) => if a ≠ [] then a else titleFromFeedTitle doc
            | _ => titleFromFeedTitle doc
          | none => []
        else []
      | none => []
    if title ≠ [] then title else ("Channel ").toList ++ channel_id

/-- Claim C8 (amended): `get_channel_title` never fails; when a key is present
and the API yields at least one item it returns that item's snippet title —
which may be the empty string; otherwise it returns the feed author name when
truthy, else the feed-level title with every ` - Topic` occurrence removed
when truthy, else the placeholder `"Channel " + id`, and on these non-API
paths the result is never empty.  (As stated the claim fails: see
`get_channel_title_empty_case`.) -/
theorem get_channel_title_spec (cid key : Str)
    (apiO : Option (List Str)) (feedO : Option FeedResp) :
    (∀ t rest, key ≠ [] → apiO = some (t :: rest) →
      get_channel_title cid key apiO feedO = t) ∧
    ((key = [] ∨ apiO = none ∨ apiO = some []) →
      get_channel_title cid key apiO feedO ≠ []) ∧
    ((key = [] ∨ apiO = none ∨ apiO = some []) →
      ∀ resp doc a, feedO = some resp → resp.status = 200 → resp.doc = some doc →
        doc.author = some (some a) → a ≠ [] →
        get_channel_title cid key apiO feedO = a) ∧
    ((key = [] ∨ apiO = none ∨ apiO = some []) →
      (feedO = none ∨ ∀ resp, feedO = some resp → resp.status ≠ 200 ∨ resp.doc = none) →
      get_channel_title cid key apiO feedO = ("Channel ").toList ++ cid) ∧
    ((key = [] ∨ apiO = none ∨ apiO = some []) →
      ∀ resp doc t, feedO = some resp → resp.status = 200 → resp.doc = some doc →
        (∀ a, doc.author = some (some a) → a = []) →
        doc.feedTitle = some (some t) → t ≠ [] →
        get_channel_title cid key apiO feedO =
          (if removeTopic t ≠ [] then removeTopic t
           else ("Channel ").toList ++ cid)) ∧
    ((key = [] ∨ apiO = none ∨ apiO = some []) →
      ∀ resp doc, feedO = some resp → resp.status = 200 → resp.doc = some doc →
        (∀ a, doc.author = some (some a) → a = []) →
        (∀ t, doc.feedTitle = some (some t) → t = []) →
      get_channel_title cid key apiO feedO = ("Channel ").toList ++ cid) := by
  have hapi : ∀ (hk : key = [] ∨ apiO = none ∨ apiO = some []),
      (if key ≠ [] then
        match apiO with
        | some (t :: _) => some t
        | _ => none
      else none) = (none : Option Str) := by
    intro hk
    rcases hk with hk | hk | hk
    · rw [if_neg (by simp [hk])]
    · rw [hk]
      split
      · rfl
      · rfl
    · rw [hk]
      split
      · rfl
      · rfl
  have hnoauthor : ∀ doc : FeedMeta, (∀ a, doc.author = some (some a) → a = []) →
      (match doc.author with
       | some (some a) => if a ≠ [] then a else titleFromFeedTitle doc
       | _ => titleFromFeedTitle doc) = titleFromFeedTitle doc := by
    intro doc hauth
    cases hao : doc.author with
    | none => rfl
    | some x =>
      cases x with
      | none => rfl
      | some a =>
        dsimp only
        rw [if_neg (fun hne => hne (hauth a hao))]
  refine ⟨?_, ?_, ?_, ?_, ?_, ?_⟩
  · intro t rest hkey hap
    unfold get_channel_title
    rw [hap, if_pos hkey]
  · intro hk
    unfold get_channel_title
    rw [hapi hk]
    dsimp only
    split
    next htitle => exact htitle
    · simp
  · intro hk resp doc a hfeed hst hdoc hauth ha
    unfold get_channel_title
    rw [hapi hk]
    dsimp only
    rw [hfeed]
    dsimp only
    rw [if_pos hst, hdoc]
    dsimp only
    rw [hauth]
    dsimp only
    rw [if_pos ha, if_pos ha]
  · intro hk hfail
    unfold get_channel_title
    rw [hapi hk]
    dsimp only
    rcases hfail with hnone | hresp
    · rw [hnone]
      simp
    · cases hfo : feedO with
      | none => simp
      | some resp =>
        rcases hresp resp hfo with hst | hdoc
        · dsimp only
          rw [if_neg hst]
          simp
        · dsimp only
          by_cases hst : resp.status = 200
          · rw [if_pos hst, hdoc]
            simp
          · rw [if_neg hst]
            simp
  · intro hk resp doc t hfeed hst hdoc hauth hft ht
    unfold get_channel_title
    rw [hapi hk]
    dsimp only
    rw [hfeed]
    dsimp only
    rw [if_pos hst, hdoc]
    dsimp only
    rw [hnoauthor doc hauth]
    have htf : titleFromFeedTitle doc = removeTopic t := by
      unfold titleFromFeedTitle
      rw [hft]
      dsimp only
      rw [if_pos ht]
    rw [htf]
  · intro hk resp doc hfeed hst hdoc hauth hfti
    unfold get_channel_title
    rw [hapi hk]
    dsimp only
    rw [hfeed]
    dsimp only
    rw [if_pos hst, hdoc]
    dsimp only
    rw [hnoauthor doc hauth]
    have htf : titleFromFeedTitle doc = [] := by
      unfold titleFromFeedTitle
      cases hft : doc.feedTitle with
      | none => rfl
      | some x =>
        cases x with
        | none => rfl
        | some t =>
          dsimp only
          rw [if_neg (fun hne => hne (hfti t hft))]
    rw [htf]
    simp

/-- Claim C8 witness: with no API key, a feed carrying a truthy author name
returns the author name; a feed with no author but the feed-level title
`Music - Topic` returns `Music` (the ` - Topic` occurrence removed). -/
theorem get_channel_title_spec_witness :
    get_channel_title ("UC1234567890123456789012").toList [] none
      (some ⟨200, some ⟨some (some ("Veritasium").toList), none⟩⟩) =
      ("Veritasium").toList ∧
    get_channel_title ("UC1234567890123456789012").toList [] none
      (some ⟨200, some ⟨none, some (some ("Music - Topic").toList)⟩⟩) =
      ("Music").toList :=
  ⟨(get_channel_title_spec ("UC1234567890123456789012").toList [] none
      (some ⟨200, some ⟨some (some ("Veritasium").toList), none⟩⟩)).2.2.1
    (Or.inl rfl) _ _ _ rfl rfl rfl rfl (by decide),
   ((get_channel_title_spec ("UC1234567890123456789012").toList [] none
      (some ⟨200, some ⟨none, some (some ("Music - Topic").toList)⟩⟩)).2.2.2.2.1
    (Or.inl rfl) _ _ _ rfl rfl rfl (fun a ha => by simp at ha) rfl
    (by decide)).trans (by decide)⟩

/-- Claim C8 counterexample: with an API key present and the API returning one
item whose extracted snippet title is empty, `get_channel_title` returns the
empty string — contradicting the claim that it never returns an empty string
and synthesizes `"Channel " + id` when no source yields a title. -/
theorem get_channel_title_empty_case :
    get_channel_title ("UC1234567890123456789012").toList ("k").toList
      (some [[]]) none = [] := by
  decide

/-! The video lister (src/app.py lines 341-417). -/

/-- VideoRec models the normalized upload record both fetch paths produce:
`video_id` plus the `title`, `published_at`, `description` and `url` values,
each possibly Python `None` (an `ElementTree` node with no text). -/
structure VideoRec where
  video_id : Str
  title : Option Str
  published_at : Option Str
  description : Option Str
  url : Option Str
deriving DecidableEq

/-- watchUrl builds the canonical watch URL for a video id. -/
def watchUrl (vid : Str) : Str :=
  ("https://www.youtube.com/watch?v=").toList ++ vid

/-- ApiItem models a search-API item as read by `fetch_videos_via_api`:
`id.videoId` (possibly absent) and the three snippet fields after their
`.get(..., "")` defaults. -/
structure ApiItem where
  videoId : Option Str
  title : Str
  publishedAt : Str
  description : Str
deriving DecidableEq

/-- apiItemToRec is the per-item normalization of the API loop: items with a
falsy `videoId` are skipped. -/
def apiItemToRec (it : ApiItem) : Option VideoRec :=
  match it.videoId with
  | none => none
  | some vid =>
    if vid = [] then none
    else some { video_id := vid, title := some it.title,
                published_at := some it.publishedAt,
                description := some it.description,
                url := some (watchUrl vid) }

/-- apiLoop mirrors the `for item in data.get("items", [])` loop of
`fetch_videos_via_api` (`continue` on missing video id, else append). -/
def apiLoop : List ApiItem → List VideoRec
  | [] => []
  | it :: rest =>
    match apiItemToRec it with
    | none => apiLoop rest
    | some r => r :: apiLoop rest

/-- fetch_videos_via_api embeds `fetch_videos_via_api` (src/app.py lines
341-371).  `apiO` maps the requested `maxResults` parameter to the `items`
list of the response (`none` models any swallowed exception). -/
def fetch_videos_via_api (channel_id yt_api_key : Str) (max_results : Nat)
    (apiO : Nat → Option (List ApiItem)) : List VideoRec :=
  match apiO (max 1 (min 50 max_results)) with
  | none => []
  | some items => apiLoop items

/-- Entry models a feed `entry` element as read by `fetch_videos_via_rss`:
for each read node, presence of the node paired with its text (the `link`
node paired with its `href` attribute). -/
structure Entry where
  vidNode : Option (Option Str)
  titleNode : Option (Option Str)
  pubNode : Option (Option Str)
  linkHref : Option (Option Str)
  descNode : Option (Option Str)
deriving DecidableEq

/-- entryToRec is the per-entry normalization of the feed loop: entries with
a falsy video id are skipped; absent nodes default to the empty string, the
absent link defaults to the watch URL. -/
def entryToRec (e : Entry) : Option VideoRec :=
  match e.vidNode.join with
  | none => none
  | some vid =>
    if vid = [] then none
    else some {
      video_id := vid,
      title := match e.titleNode with | some t => t | none => some [],
      published_at := match e.pubNode with | some t => t | none => some [],
      description := match e.descNode with | some t => t | none => some [],
      url := match e.linkHref with | some h => h | none => some (watchUrl vid) }

/-- rssLoop mirrors the `for e in entries[:max_results]` loop of
`fetch_videos_via_rss`. -/
def rssLoop : List Entry → List VideoRec
  | [] => []
  | e :: rest =>
    match entryToRec e with
    | none => rssLoop rest
    | some r => r :: rssLoop rest

/-- fetch_videos_via_rss embeds `fetch_videos_via_rss` (src/app.py lines
374-409).  `feedO` models the feed request: `none` a swallowed request
failure, otherwise the status code with the parse outcome (`none` models
`ET.fromstring` raising, also swallowed). -/
def fetch_videos_via_rss (channel_id : Str) (max_results : Nat)
    (feedO : Option (Nat × Option (List Entry))) : List VideoRec :=
  match feedO with
  | none => []
  | some (st, d) =>
    if st = 200 then
      match d with
      | none => []
      | some entries => rssLoop (entries.take max_results)
    else []

/-- fetch_latest_videos embeds `fetch_latest_videos` (src/app.py lines
412-417): API first when a key is present, feed fallback when the API path
yields no records. -/
def fetch_latest_videos (channel_id yt_api_key : Str) (max_results : Nat)
    (apiO : Nat → Option (List ApiItem))
    (feedO : Option (Nat × Option (List Entry))) : List VideoRec :=
  if yt_api_key ≠ [] then
    let vids := fetch_videos_via_api channel_id yt_api_key max_results apiO
    if vids ≠ [] then vids else fetch_videos_via_rss channel_id max_results feedO
  else fetch_videos_via_rss channel_id max_results feedO

lemma apiLoop_eq_filterMap (items : List ApiItem) :
    apiLoop items = items.filterMap apiItemToRec := by
  induction items with
  | nil => rfl
  | cons it rest ih =>
    unfold apiLoop
    rw [List.filterMap_cons]
    cases apiItemToRec it with
    | none => exact ih
    | some r => rw [ih]

lemma rssLoop_eq_filterMap (entries : List Entry) :
    rssLoop entries = entries.filterMap entryToRec := by
  induction entries with
  | nil => rfl
  | cons e rest ih =>
    unfold rssLoop
    rw [List.filterMap_cons]
    cases entryToRec e with
    | none => exact ih
    | some r => rw [ih]

/-- Claim C2: source-selection policy of `fetch_latest_videos`.  With a key
present and the API path yielding at least one record, the result is exactly
the API records and is independent of the feed; with no key or zero API
records, the result is exactly the feed path, which on a successful feed is
the entries in feed order, truncated to the requested count, skipping entries
without an extractable video id, and never exceeds the requested count.  Both
paths produce the same record shape (`VideoRec`) by construction. -/
theorem fetch_latest_videos_policy (cid key : Str) (mr : Nat)
    (apiO : Nat → Option (List ApiItem))
    (feedO feedO₂ : Option (Nat × Option (List Entry))) :
    (key ≠ [] → fetch_videos_via_api cid key mr apiO ≠ [] →
      fetch_latest_videos cid key mr apiO feedO =
        fetch_videos_via_api cid key mr apiO) ∧
    (key ≠ [] → fetch_videos_via_api cid key mr apiO ≠ [] →
      fetch_latest_videos cid key mr apiO feedO =
        fetch_latest_videos cid key mr apiO feedO₂) ∧
    ((key = [] ∨ fetch_videos_via_api cid key mr apiO = []) →
      fetch_latest_videos cid key mr apiO feedO =
        fetch_videos_via_rss cid mr feedO) ∧
    (∀ entries, feedO = some (200, some entries) →
      fetch_videos_via_rss cid mr feedO = (entries.take mr).filterMap entryToRec) ∧
    ((fetch_videos_via_rss cid mr feedO).length ≤ mr) ∧
    (∀ items, apiO (max 1 (min 50 mr)) = some items →
      fetch_videos_via_api cid key mr apiO = items.filterMap apiItemToRec) := by
  refine ⟨?_, ?_, ?_, ?_, ?_, ?_⟩
  · intro hkey hapi
    unfold fetch_latest_videos
    rw [if_pos hkey]
    dsimp only
    rw [if_pos hapi]
  · intro hkey hapi
    unfold fetch_latest_videos
    rw [if_pos hkey, if_pos hkey]
    dsimp only
    rw [if_pos hapi, if_pos hapi]
  · intro hk
    unfold fetch_latest_videos
    rcases hk with hk | hk
    · rw [if_neg (by simp [hk])]
    · rw [hk]
      by_cases hkey : key ≠ []
      · rw [if_pos hkey]
        dsimp only
        simp
      · rw [if_neg hkey]
  · intro entries hfo
    rw [hfo]
    unfold fetch_videos_via_rss
    dsimp only
    rw [if_pos rfl]
    exact rssLoop_eq_filterMap _
  · unfold fetch_videos_via_rss
    cases feedO with
    | none => simp
    | some p =>
      rcases p with ⟨st, d⟩
      dsimp only
      by_cases hst : st = 200
      · rw [if_pos hst]
        cases d with
        | none => simp
        | some entries =>
          dsimp only
          rw [rssLoop_eq_filterMap]
          calc ((entries.take mr).filterMap entryToRec).length
              ≤ (entries.take mr).length := List.length_filterMap_le _ _
            _ ≤ mr := List.length_take_le _ _
      · rw [if_neg hst]
        simp
  · intro items hap
    unfold fetch_videos_via_api
    rw [hap]
    exact apiLoop_eq_filterMap _

/-- Claim C2 witness: with a key and an API item available, the API records
are returned even though the feed would deliver a different entry; the
feed-path equation is exercised at a concrete feed too. -/
theorem fetch_latest_videos_policy_witness :
    fetch_latest_videos ("UC1234567890123456789012").toList ("k").toList 5
        (fun _ => some [⟨some ("vidA").toList, ("tA").toList, ("pA").toList, ("dA").toList⟩])
        (some (200, some [⟨some (some ("vidB").toList), none, none, none, none⟩])) =
      [⟨("vidA").toList, some ("tA").toList, some ("pA").toList, some ("dA").toList,
        some (watchUrl ("vidA").toList)⟩] :=
  ((fetch_latest_videos_policy ("UC1234567890123456789012").toList ("k").toList 5
      (fun _ => some [⟨some ("vidA").toList, ("tA").toList, ("pA").toList, ("dA").toList⟩])
      (some (200, some [⟨some (some ("vidB").toList), none, none, none, none⟩]))
      none).1 (by decide) (by decide)).trans (by decide)

/-! The persistence store (src/app.py lines 21-212), modelled as two lists of
rows.  SQLite row order is modelled as insertion order; the primary-key
`IntegrityError` that the code catches is modelled by explicit presence
checks on the key column. -/

/-- ChannelRow models one row of the `channels` table. -/
structure ChannelRow where
  channel_id : Str
  title : Str
  url : Str
  added_at : Str
  last_checked : Option Str
deriving DecidableEq

/-- VideoRow models one row of the `videos` table (`seen INTEGER DEFAULT 0`
modelled as a Bool). -/
structure VideoRow where
  video_id : Str
  channel_id : Str
  title : Str
  published_at : Str
  description : Str
  url : Str
  added_at : Str
  seen : Bool
deriving DecidableEq

/-- Store models the database state. -/
structure Store where
  channels : List ChannelRow
  videos : List VideoRow
deriving DecidableEq

/-- hasChannel tests presence of a `channels` primary key. -/
def hasChannel (s : Store) (cid : Str) : Bool :=
  s.channels.any (fun c => c.channel_id == cid)

/-- hasVideo tests presence of a `videos` primary key. -/
def hasVideo (s : Store) (vid : Str) : Bool :=
  s.videos.any (fun v => v.video_id == vid)

/-- add_channel embeds `add_channel` (src/app.py lines 54-64): insert the row,
returning `false` with no mutation when the primary key is already present
(the caught `IntegrityError`); `now` stands for `utc_now_iso()`. -/
def add_channel (s : Store) (channel_id title url now : Str) : Bool × Store :=
  if hasChannel s channel_id = true then (false, s)
  else (true, { s with channels := s.channels ++
    [{ channel_id := channel_id, title := title, url := url,
       added_at := now, last_checked := none }] })

/-- remove_channel embeds `remove_channel` (src/app.py lines 67-71): delete
the videos of the channel, then the channel row. -/
def remove_channel (s : Store) (channel_id : Str) : Store :=
  { channels := s.channels.filter (fun c => !(c.channel_id == channel_id)),
    videos := s.videos.filter (fun v => !(v.channel_id == channel_id)) }

/-- orEmpty models `x or ""` on an optional string field. -/
def orEmpty : Option Str → Str
  | some t => t
  | none => []

/-- mkVideoRow builds the row inserted for one candidate record by
`insert_videos` (src/app.py lines 95-109), with its `or` defaults and
`seen = 0`. -/
def mkVideoRow (channel_id now : Str) (v : VideoRec) : VideoRow :=
  { video_id := v.video_id,
    channel_id := channel_id,
    title := orEmpty v.title,
    published_at := orEmpty v.published_at,
    description := orEmpty v.description,
    url := match v.url with
           | some u => if u ≠ [] then u else watchUrl v.video_id
           | none => watchUrl v.video_id,
    added_at := now,
    seen := false }

/-- insertVideosLoop mirrors the `for v in videos` loop of `insert_videos`:
each insert that hits an existing `video_id` primary key raises and is
skipped, otherwise the row is appended and the counter incremented. -/
def insertVideosLoop (channel_id now : Str) : List VideoRec → Store → Nat × Store
  | [], s => (0, s)
  | v :: rest, s =>
    if hasVideo s v.video_id = true then insertVideosLoop channel_id now rest s
    else
      ((insertVideosLoop channel_id now rest
          { s with videos := s.videos ++ [mkVideoRow channel_id now v] }).1 + 1,
       (insertVideosLoop channel_id now rest
          { s with videos := s.videos ++ [mkVideoRow channel_id now v] }).2)

/-- insert_videos embeds `insert_videos` (src/app.py lines 90-115): returns
the count of rows actually inserted together with the new store. -/
def insert_videos (s : Store) (channel_id : Str) (videos : List VideoRec)
    (now : Str) : Nat × Store :=
  insertVideosLoop channel_id now videos s

/-- mark_channel_checked embeds `mark_channel_checked` (src/app.py lines
118-121). -/
def mark_channel_checked (s : Store) (channel_id now : Str) : Store :=
  { s with channels := s.channels.map (fun c =>
      if c.channel_id = channel_id then { c with last_checked := some now } else c) }

/-- mark_videos_seen embeds `mark_videos_seen` (src/app.py lines 165-171):
`UPDATE videos SET seen = 1 WHERE ... seen = 0`, scoped to one channel only
when the passed `channel_id` is truthy (neither `None` nor empty). -/
def mark_videos_seen (s : Store) (channel_id : Option Str) : Store :=
  match channel_id with
  | some cid =>
    if cid ≠ [] then
      { s with videos := s.videos.map (fun v =>
          if v.channel_id = cid ∧ v.seen = false then { v with seen := true } else v) }
    else
      { s with videos := s.videos.map (fun v =>
          if v.seen = false then { v with seen := true } else v) }
  | none =>
    { s with videos := s.videos.map (fun v =>
        if v.seen = false then { v with seen := true } else v) }

/-- QueryRow models the dictionary built per row by `get_unseen_videos`. -/
structure QueryRow where
  video_id : Str
  channel_id : Str
  title : Str
  published_at : Str
  description : Str
  url : Str
  channel_title : Str
deriving DecidableEq

/-- mkQueryRow builds the result dictionary of `get_unseen_videos`, with the
`r[6] or r[1]` fallback of `channel_title` to the raw channel id. -/
def mkQueryRow (v : VideoRow) (c : ChannelRow) : QueryRow :=
  { video_id := v.video_id, channel_id := v.channel_id, title := v.title,
    published_at := v.published_at, description := v.description, url := v.url,
    channel_title := if c.title = [] then v.channel_id else c.title }

/-- strLtBool is strict lexicographic order on strings (SQLite TEXT order). -/
def strLtBool : Str → Str → Bool
  | [], [] => false
  | [], _ :: _ => true
  | _ :: _, [] => false
  | a :: s, b :: t => if a = b then strLtBool s t else decide (a < b)

/-- insertByPubDesc inserts into a list sorted by `published_at` descending. -/
def insertByPubDesc (x : QueryRow) : List QueryRow → List QueryRow
  | [] => [x]
  | y :: rest =>
    if strLtBool y.published_at x.published_at = true then x :: y :: rest
    else y :: insertByPubDesc x rest

/-- sortByPubDesc models `ORDER BY v.published_at DESC` (a deterministic
sort; SQLite leaves tie order unspecified, here ties keep list order). -/
def sortByPubDesc : List QueryRow → List QueryRow
  | [] => []
  | x :: rest => insertByPubDesc x (sortByPubDesc rest)

/-- get_unseen_videos embeds `get_unseen_videos` (src/app.py lines 124-162):
unseen rows, scoped to a channel when the argument is truthy, inner-joined
with their channel row, ordered by publish date descending, limited. -/
def get_unseen_videos (s : Store) (channel_id : Option Str) (lim : Nat) :
    List QueryRow :=
  let base : List VideoRow :=
    match channel_id with
    | some cid =>
      if cid ≠ [] then
        s.videos.filter (fun v => decide (v.seen = false ∧ v.channel_id = cid))
      else s.videos.filter (fun v => decide (v.seen = false))
    | none => s.videos.filter (fun v => decide (v.seen = false))
  let joined : List QueryRow := base.flatMap (fun v =>
    (s.channels.filter (fun c => c.channel_id == v.channel_id)).map (mkQueryRow v))
  (sortByPubDesc joined).take lim

/-- Claim C3: `add_channel` returns true and appends the channel row iff the
`channel_id` is not already present; on a duplicate primary key it returns
false and mutates nothing (the raised `IntegrityError` is caught, never
reaching the caller — the embedding is a total function); the `videos` table
is never touched. -/
theorem add_channel_spec (s : Store) (cid t u now : Str) :
    ((add_channel s cid t u now).1 = true ↔ hasChannel s cid = false) ∧
    (hasChannel s cid = true → (add_channel s cid t u now).2 = s) ∧
    (hasChannel s cid = false →
      (add_channel s cid t u now).2.channels =
        s.channels ++ [{ channel_id := cid, title := t, url := u,
                         added_at := now, last_checked := none }] ∧
      hasChannel (add_channel s cid t u now).2 cid = true) ∧
    ((add_channel s cid t u now).2.videos = s.videos) := by
  unfold add_channel
  by_cases h : hasChannel s cid = true
  · rw [if_pos h]
    exact ⟨by simp [h], fun _ => rfl, fun hf => absurd h (by simp [hf]), rfl⟩
  · rw [if_neg h]
    have hf : hasChannel s cid = false := by simpa using h
    refine ⟨by simp [hf], fun hc => absurd hc h, fun _ => ⟨rfl, ?_⟩, rfl⟩
    unfold hasChannel
    simp [List.any_append]

/-- Claim C3 witness: inserting a fresh id into the empty store succeeds, and
re-inserting it then fails with the state unchanged. -/
theorem add_channel_spec_witness :
    (add_channel { channels := [], videos := [] } ("UCc").toList ("T").toList
        ("u").toList ("n").toList).1 = true ∧
    (add_channel (add_channel { channels := [], videos := [] } ("UCc").toList
        ("T").toList ("u").toList ("n").toList).2 ("UCc").toList ("T2").toList
        ("u2").toList ("n2").toList).2 =
      (add_channel { channels := [], videos := [] } ("UCc").toList ("T").toList
        ("u").toList ("n").toList).2 :=
  ⟨(add_channel_spec { channels := [], videos := [] } ("UCc").toList ("T").toList
      ("u").toList ("n").toList).1.mpr (by decide),
   (add_channel_spec (add_channel { channels := [], videos := [] } ("UCc").toList
      ("T").toList ("u").toList ("n").toList).2 ("UCc").toList ("T2").toList
      ("u2").toList ("n2").toList).2.1 (by decide)⟩

lemma filter_map_eq {α : Type} (f : α → α) (p : α → Bool)
    (hfix : ∀ a, p a = true → f a = a) (hpres : ∀ a, p (f a) = p a) :
    ∀ l : List α, (l.map f).filter p = l.filter p := by
  intro l
  induction l with
  | nil => rfl
  | cons a t ih =>
    rw [List.map_cons, List.filter_cons, List.filter_cons, hpres a]
    by_cases hpa : p a = true
    · rw [if_pos (by simp [hpa]), if_pos (by simp [hpa]), hfix a hpa, ih]
    · have hfa : p a = false := by simpa using hpa
      rw [if_neg (by simp [hfa]), if_neg (by simp [hfa]), ih]

/-- Claim C9: marking one channel's videos seen (`mark_videos_seen` scoped to
a truthy channel id `A`) leaves the channels table alone and leaves every
video row of any other channel byte-for-byte unchanged; afterwards every `A`
row is seen; and the unseen query for a different channel `B` returns exactly
what it returned before, so its unseen count is unaffected. -/
theorem mark_videos_seen_frame (s : Store) (A B : Str) (lim : Nat)
    (hA : A ≠ []) (hB : B ≠ []) (hAB : B ≠ A) :
    ((mark_videos_seen s (some A)).channels = s.channels) ∧
    ((mark_videos_seen s (some A)).videos.filter (fun v => !(v.channel_id == A)) =
      s.videos.filter (fun v => !(v.channel_id == A))) ∧
    (∀ v ∈ (mark_videos_seen s (some A)).videos, v.channel_id = A → v.seen = true) ∧
    (get_unseen_videos (mark_videos_seen s (some A)) (some B) lim =
      get_unseen_videos s (some B) lim) := by
  have hms : mark_videos_seen s (some A) =
      { s with videos := s.videos.map (fun v =>
          if v.channel_id = A ∧ v.seen = false then { v with seen := true } else v) } := by
    unfold mark_videos_seen
    dsimp only
    rw [if_pos hA]
  set f : VideoRow → VideoRow := fun v =>
      if v.channel_id = A ∧ v.seen = false then { v with seen := true } else v with hf
  have hchan : ∀ v : VideoRow, (f v).channel_id = v.channel_id := by
    intro v
    by_cases h : v.channel_id = A ∧ v.seen = false
    · simp [hf, if_pos h]
    · simp [hf, if_neg h]
  have hfix : ∀ v : VideoRow, v.channel_id ≠ A → f v = v := by
    intro v hv
    simp only [hf]
    rw [if_neg (fun hc => hv hc.1)]
  refine ⟨by rw [hms], ?_, ?_, ?_⟩
  · rw [hms]
    exact filter_map_eq f _
      (fun v hp => hfix v (by
        have hp2 : v.channel_id ≠ A := by simpa using hp
        exact hp2))
      (fun v => by rw [hchan v]) s.videos
  · rw [hms]
    intro v hv hvA
    obtain ⟨w, hw, hfw⟩ := List.mem_map.mp hv
    by_cases h : w.channel_id = A ∧ w.seen = false
    · rw [← hfw]
      simp [hf, if_pos h]
    · have hww : f w = w := by simp only [hf]; rw [if_neg h]
      rw [hww] at hfw
      rw [← hfw] at hvA ⊢
      rcases Bool.eq_false_or_eq_true w.seen with hs | hs
      · exact hs
      · exact absurd ⟨hvA, hs⟩ h
  · rw [hms]
    unfold get_unseen_videos
    dsimp only
    rw [if_pos hB, if_pos hB]
    have hbase : (s.videos.map f).filter
          (fun v => decide (v.seen = false ∧ v.channel_id = B)) =
        s.videos.filter (fun v => decide (v.seen = false ∧ v.channel_id = B)) := by
      refine filter_map_eq f _ ?_ ?_ s.videos
      · intro v hp
        rw [decide_eq_true_eq] at hp
        exact hfix v (fun hc => hAB (hc ▸ hp.2).symm)
      · intro v
        rw [decide_eq_decide]
        by_cases hc : v.channel_id = A
        · have hfc : (f v).channel_id = A := by rw [hchan v]; exact hc
          constructor
          · rintro ⟨-, hvb⟩
            exact absurd (hfc.symm.trans hvb).symm hAB
          · rintro ⟨-, hvb⟩
            exact absurd (hc.symm.trans hvb).symm hAB
        · rw [hfix v hc]
    rw [hbase]

/-- Claim C9 witness: with two channels and one unseen video each, marking
channel `a` seen leaves channel `b`'s unseen query (and count) as before. -/
theorem mark_videos_seen_frame_witness :
    get_unseen_videos (mark_videos_seen
        { channels := [{ channel_id := ("a").toList, title := ("TA").toList,
                         url := [], added_at := [], last_checked := none },
                       { channel_id := ("b").toList, title := ("TB").toList,
                         url := [], added_at := [], last_checked := none }],
          videos := [{ video_id := ("v1").toList, channel_id := ("a").toList,
                       title := [], published_at := ("2024").toList,
                       description := [], url := [], added_at := [], seen := false },
                     { video_id := ("v2").toList, channel_id := ("b").toList,
                       title := [], published_at := ("2025").toList,
                       description := [], url := [], added_at := [], seen := false }] }
        (some (("a").toList))) (some (("b").toList)) 100 =
      get_unseen_videos
        { channels := [{ channel_id := ("a").toList, title := ("TA").toList,
                         url := [], added_at := [], last_checked := none },
                       { channel_id := ("b").toList, title := ("TB").toList,
                         url := [], added_at := [], last_checked := none }],
          videos := [{ video_id := ("v1").toList, channel_id := ("a").toList,
                       title := [], published_at := ("2024").toList,
                       description := [], url := [], added_at := [], seen := false },
                     { video_id := ("v2").toList, channel_id := ("b").toList,
                       title := [], published_at := ("2025").toList,
                       description := [], url := [], added_at := [], seen := false }] }
        (some (("b").toList)) 100 :=
  (mark_videos_seen_frame _ (("a").toList) (("b").toList) 100
    (by decide) (by decide) (by decide)).2.2.2

lemma insertVideosLoop_spec (ch now : Str) :
    ∀ (batch : List VideoRec) (s : Store),
      ∃ Δ : List VideoRow,
        (insertVideosLoop ch now batch s).2.videos = s.videos ++ Δ ∧
        (insertVideosLoop ch now batch s).2.channels = s.channels ∧
        (insertVideosLoop ch now batch s).1 = Δ.length ∧
        (∀ r ∈ Δ, r.seen = false ∧ r.channel_id = ch ∧ r.added_at = now ∧
          hasVideo s r.video_id = false ∧ ∃ w ∈ batch, r = mkVideoRow ch now w) ∧
        (Δ.map (fun r => r.video_id)).Nodup ∧
        (∀ w ∈ batch, hasVideo (insertVideosLoop ch now batch s).2 w.video_id = true) := by
  intro batch
  induction batch with
  | nil =>
    intro s
    exact ⟨[], by simp [insertVideosLoop], rfl, rfl, by simp, by simp, by simp⟩
  | cons v rest ih =>
    intro s
    by_cases h : hasVideo s v.video_id = true
    · obtain ⟨Δ, h1, h2, h3, h4, h5, h6⟩ := ih s
      have loopeq : insertVideosLoop ch now (v :: rest) s =
          insertVideosLoop ch now rest s := by
        rw [insertVideosLoop, if_pos h]
      refine ⟨Δ, by rw [loopeq]; exact h1, by rw [loopeq]; exact h2,
        by rw [loopeq]; exact h3, ?_, h5, ?_⟩
      · intro r hr
        obtain ⟨ha, hb, hc, hd, w, hw, he⟩ := h4 r hr
        exact ⟨ha, hb, hc, hd, w, List.mem_cons_of_mem v hw, he⟩
      · intro w hw
        rw [loopeq]
        rcases List.mem_cons.mp hw with rfl | hw2
        · show ((insertVideosLoop ch now rest s).2.videos.any
            (fun r => r.video_id == w.video_id)) = true
          rw [h1, List.any_append]
          have : hasVideo s w.video_id = true := h
          unfold hasVideo at this
          rw [this]
          rfl
        · exact h6 w hw2
    · set s₁ : Store := { s with videos := s.videos ++ [mkVideoRow ch now v] } with hs₁
      obtain ⟨Δ₁, h1, h2, h3, h4, h5, h6⟩ := ih s₁
      have loopeq : insertVideosLoop ch now (v :: rest) s =
          ((insertVideosLoop ch now rest s₁).1 + 1,
           (insertVideosLoop ch now rest s₁).2) := by
        rw [insertVideosLoop, if_neg h]
      have hsv : s₁.videos = s.videos ++ [mkVideoRow ch now v] := rfl
      refine ⟨mkVideoRow ch now v :: Δ₁, ?_, ?_, ?_, ?_, ?_, ?_⟩
      · rw [loopeq]
        show (insertVideosLoop ch now rest s₁).2.videos =
          s.videos ++ (mkVideoRow ch now v :: Δ₁)
        rw [h1, hsv, List.append_assoc]
        rfl
      · rw [loopeq]
        exact h2
      · rw [loopeq]
        show (insertVideosLoop ch now rest s₁).1 + 1 =
          (mkVideoRow ch now v :: Δ₁).length
        rw [h3, List.length_cons]
      · intro r hr
        rcases List.mem_cons.mp hr with rfl | hr2
        · exact ⟨rfl, rfl, rfl, by simpa using h, v, List.mem_cons_self v rest, rfl⟩
        · obtain ⟨ha, hb, hc, hd, w, hw, he⟩ := h4 r hr2
          refine ⟨ha, hb, hc, ?_, w, List.mem_cons_of_mem v hw, he⟩
          unfold hasVideo at hd
          rw [hsv, List.any_append] at hd
          unfold hasVideo
          exact (Bool.or_eq_false_iff.mp hd).1
      · rw [List.map_cons, List.nodup_cons]
        refine ⟨?_, h5⟩
        intro hmem
        obtain ⟨r, hr, hid⟩ := List.mem_map.mp hmem
        have hd := (h4 r hr).2.2.2.1
        unfold hasVideo at hd
        rw [hsv, List.any_append] at hd
        have hone := (Bool.or_eq_false_iff.mp hd).2
        simp only [List.any_cons, List.any_nil, Bool.or_false] at hone
        rw [hid] at hone
        simp at hone
      · intro w hw
        rw [loopeq]
        rcases List.mem_cons.mp hw with rfl | hw2
        · show ((insertVideosLoop ch now rest s₁).2.videos.any
            (fun r => r.video_id == w.video_id)) = true
          rw [h1, hsv, List.any_append, List.any_append]
          simp [mkVideoRow]
        · exact h6 w hw2

/-- Claim C4: `insert_videos` leaves the channels table and every pre-existing
video row unchanged (the old table is an unchanged prefix of the new one),
returns exactly the number of rows actually added, adds only rows built from
batch records whose `video_id` was not already present, with `seen = 0` and
the given channel; afterwards every batch record's `video_id` is present; and
it introduces no duplicate `video_id`. -/
theorem insert_videos_spec (s : Store) (ch now : Str) (batch : List VideoRec) :
    ((insert_videos s ch batch now).2.channels = s.channels) ∧
    ((insert_videos s ch batch now).2.videos.take s.videos.length = s.videos) ∧
    ((insert_videos s ch batch now).1 + s.videos.length =
      (insert_videos s ch batch now).2.videos.length) ∧
    (∀ r ∈ (insert_videos s ch batch now).2.videos.drop s.videos.length,
      r.seen = false ∧ r.channel_id = ch ∧ hasVideo s r.video_id = false ∧
      ∃ w ∈ batch, r = mkVideoRow ch now w) ∧
    (∀ w ∈ batch, hasVideo (insert_videos s ch batch now).2 w.video_id = true) ∧
    ((s.videos.map (fun r => r.video_id)).Nodup →
      ((insert_videos s ch batch now).2.videos.map (fun r => r.video_id)).Nodup) := by
  obtain ⟨Δ, h1, h2, h3, h4, h5, h6⟩ := insertVideosLoop_spec ch now batch s
  have hteq : insert_videos s ch batch now = insertVideosLoop ch now batch s := rfl
  rw [hteq, h1]
  refine ⟨h2, ?_, ?_, ?_, ?_, ?_⟩
  · exact List.take_left s.videos Δ
  · rw [h3, List.length_append]
    omega
  · rw [List.drop_left]
    intro r hr
    obtain ⟨ha, hb, _, hd, w, hw, he⟩ := h4 r hr
    exact ⟨ha, hb, hd, w, hw, he⟩
  · intro w hw
    exact h6 w hw
  · intro hnd
    rw [List.map_append, List.nodup_append]
    refine ⟨hnd, h5, ?_⟩
    intro a ha hb
    obtain ⟨r, hr, hid⟩ := List.mem_map.mp hb
    obtain ⟨w2, hw2, hwid⟩ := List.mem_map.mp ha
    have hd := (h4 r hr).2.2.2.1
    unfold hasVideo at hd
    rw [List.any_eq_false] at hd
    have hfin := hd w2 hw2
    rw [hwid, hid] at hfin
    simp at hfin

/-- Claim C4 witness: inserting a batch with one known and one fresh id into a
one-video store reports one inserted row, and both ids are present after. -/
theorem insert_videos_spec_witness :
    (insert_videos
        { channels := [],
          videos := [{ video_id := ("v1").toList, channel_id := ("a").toList,
                       title := ("told").toList, published_at := [],
                       description := [], url := [], added_at := [], seen := true }] }
        ("a").toList
        [⟨("v1").toList, some ("tnew").toList, none, none, none⟩,
         ⟨("v2").toList, some ("t2").toList, none, none, none⟩]
        ("n").toList).1 + 1 =
      (insert_videos
        { channels := [],
          videos := [{ video_id := ("v1").toList, channel_id := ("a").toList,
                       title := ("told").toList, published_at := [],
                       description := [], url := [], added_at := [], seen := true }] }
        ("a").toList
        [⟨("v1").toList, some ("tnew").toList, none, none, none⟩,
         ⟨("v2").toList, some ("t2").toList, none, none, none⟩]
        ("n").toList).2.videos.length :=
  (insert_videos_spec
    { channels := [],
      videos := [{ video_id := ("v1").toList, channel_id := ("a").toList,
                   title := ("told").toList, published_at := [],
                   description := [], url := [], added_at := [], seen := true }] }
    ("a").toList ("n").toList
    [⟨("v1").toList, some ("tnew").toList, none, none, none⟩,
     ⟨("v2").toList, some ("t2").toList, none, none, none⟩]).2.2.1

lemma insertVideosLoop_delta_of_nodup (ch now : Str) :
    ∀ (batch : List VideoRec) (s : Store),
      ((batch.map (fun w => w.video_id)).Nodup) →
      (insertVideosLoop ch now batch s).2.videos =
        s.videos ++ (batch.filter (fun w => !hasVideo s w.video_id)).map
          (mkVideoRow ch now) ∧
      (insertVideosLoop ch now batch s).1 =
        (batch.filter (fun w => !hasVideo s w.video_id)).length ∧
      (insertVideosLoop ch now batch s).2.channels = s.channels := by
  intro batch
  induction batch with
  | nil =>
    intro s _
    exact ⟨by simp [insertVideosLoop], by simp [insertVideosLoop], rfl⟩
  | cons v rest ih =>
    intro s hnd
    rw [List.map_cons, List.nodup_cons] at hnd
    by_cases h : hasVideo s v.video_id = true
    · have loopeq : insertVideosLoop ch now (v :: rest) s =
          insertVideosLoop ch now rest s := by
        rw [insertVideosLoop, if_pos h]
      have hfilter : (v :: rest).filter (fun w => !hasVideo s w.video_id) =
          rest.filter (fun w => !hasVideo s w.video_id) := by
        rw [List.filter_cons, if_neg (by simp [h])]
      obtain ⟨h1, h2, h3⟩ := ih s hnd.2
      exact ⟨by rw [loopeq, hfilter]; exact h1,
             by rw [loopeq, hfilter]; exact h2,
             by rw [loopeq]; exact h3⟩
    · set s₁ : Store := { s with videos := s.videos ++ [mkVideoRow ch now v] } with hs₁
      have hsv : s₁.videos = s.videos ++ [mkVideoRow ch now v] := rfl
      have loopeq : insertVideosLoop ch now (v :: rest) s =
          ((insertVideosLoop ch now rest s₁).1 + 1,
           (insertVideosLoop ch now rest s₁).2) := by
        rw [insertVideosLoop, if_neg h]
      have hsame : ∀ w ∈ rest, hasVideo s₁ w.video_id = hasVideo s w.video_id := by
        intro w hw
        unfold hasVideo
        rw [hsv, List.any_append]
        have hne : (mkVideoRow ch now v).video_id ≠ w.video_id := by
          intro hcon
          exact hnd.1 (List.mem_map.mpr ⟨w, hw, hcon.symm⟩)
        simp only [List.any_cons, List.any_nil, Bool.or_false]
        rw [beq_eq_false_iff_ne.mpr hne, Bool.or_false]
      have hfshift : rest.filter (fun w => !hasVideo s₁ w.video_id) =
          rest.filter (fun w => !hasVideo s w.video_id) := by
        apply List.filter_congr
        intro w hw
        rw [hsame w hw]
      have hfilter : (v :: rest).filter (fun w => !hasVideo s w.video_id) =
          v :: rest.filter (fun w => !hasVideo s w.video_id) := by
        rw [List.filter_cons, if_pos (by simp [h])]
      obtain ⟨h1, h2, h3⟩ := ih s₁ hnd.2
      refine ⟨?_, ?_, ?_⟩
      · rw [loopeq]
        show (insertVideosLoop ch now rest s₁).2.videos = _
        rw [h1, hfshift, hfilter, hsv, List.append_assoc]
        rfl
      · rw [loopeq]
        show (insertVideosLoop ch now rest s₁).1 + 1 = _
        rw [h2, hfshift, hfilter, List.length_cons]
      · rw [loopeq]
        exact h3

/-- Claim C5 (amended): when no two records of the batch share a `video_id`,
inserting the batch in any permuted order yields the same inserted count, the
same channels table, and the same final video rows up to row order (the
final tables are permutations of each other — SQLite tables are unordered).
(As stated — for every batch — the claim fails: see
`insert_videos_perm_payload_cex`, where two batch records share an id but
carry different payloads and the surviving payload depends on order.) -/
theorem insert_videos_perm (s : Store) (ch now : Str) (b₁ b₂ : List VideoRec)
    (hperm : b₁.Perm b₂) (hnd : (b₁.map (fun w => w.video_id)).Nodup) :
    (insert_videos s ch b₁ now).1 = (insert_videos s ch b₂ now).1 ∧
    ((insert_videos s ch b₁ now).2.videos).Perm
      ((insert_videos s ch b₂ now).2.videos) ∧
    (insert_videos s ch b₁ now).2.channels =
      (insert_videos s ch b₂ now).2.channels := by
  have hnd₂ : (b₂.map (fun w => w.video_id)).Nodup :=
    ((hperm.map (fun w => w.video_id)).nodup_iff).mp hnd
  obtain ⟨h1, h2, h3⟩ := insertVideosLoop_delta_of_nodup ch now b₁ s hnd
  obtain ⟨g1, g2, g3⟩ := insertVideosLoop_delta_of_nodup ch now b₂ s hnd₂
  have hfperm : (b₁.filter (fun w => !hasVideo s w.video_id)).Perm
      (b₂.filter (fun w => !hasVideo s w.video_id)) := hperm.filter _
  have hteq₁ : insert_videos s ch b₁ now = insertVideosLoop ch now b₁ s := rfl
  have hteq₂ : insert_videos s ch b₂ now = insertVideosLoop ch now b₂ s := rfl
  refine ⟨?_, ?_, ?_⟩
  · rw [hteq₁, hteq₂, h2, g2]
    exact hfperm.length_eq
  · rw [hteq₁, hteq₂, h1, g1]
    exact (hfperm.map (mkVideoRow ch now)).append_left s.videos
  · rw [hteq₁, hteq₂, h3, g3]

/-- Claim C5 witness: a two-record batch with distinct ids inserted in either
order gives the same count, permuted rows, and the same channels. -/
theorem insert_videos_perm_witness :
    (insert_videos { channels := [], videos := [] } ("a").toList
        [⟨("v1").toList, some ("t1").toList, none, none, none⟩,
         ⟨("v2").toList, some ("t2").toList, none, none, none⟩] ("n").toList).1 =
      (insert_videos { channels := [], videos := [] } ("a").toList
        [⟨("v2").toList, some ("t2").toList, none, none, none⟩,
         ⟨("v1").toList, some ("t1").toList, none, none, none⟩] ("n").toList).1 ∧
    ((insert_videos { channels := [], videos := [] } ("a").toList
        [⟨("v1").toList, some ("t1").toList, none, none, none⟩,
         ⟨("v2").toList, some ("t2").toList, none, none, none⟩] ("n").toList).2.videos).Perm
      ((insert_videos { channels := [], videos := [] } ("a").toList
        [⟨("v2").toList, some ("t2").toList, none, none, none⟩,
         ⟨("v1").toList, some ("t1").toList, none, none, none⟩] ("n").toList).2.videos) ∧
    (insert_videos { channels := [], videos := [] } ("a").toList
        [⟨("v1").toList, some ("t1").toList, none, none, none⟩,
         ⟨("v2").toList, some ("t2").toList, none, none, none⟩] ("n").toList).2.channels =
      (insert_videos { channels := [], videos := [] } ("a").toList
        [⟨("v2").toList, some ("t2").toList, none, none, none⟩,
         ⟨("v1").toList, some ("t1").toList, none, none, none⟩] ("n").toList).2.channels :=
  insert_videos_perm { channels := [], videos := [] } ("a").toList ("n").toList
    [⟨("v1").toList, some ("t1").toList, none, none, none⟩,
     ⟨("v2").toList, some ("t2").toList, none, none, none⟩]
    [⟨("v2").toList, some ("t2").toList, none, none, none⟩,
     ⟨("v1").toList, some ("t1").toList, none, none, none⟩]
    (List.Perm.swap _ _ _) (by decide)

/-- Claim C5 counterexample: two batch records sharing a `video_id` but with
different titles — the batches are permutations of each other, yet the final
store states differ (the stored title depends on the record order), so
insertion order does affect which data ends up stored. -/
theorem insert_videos_perm_payload_cex :
    ([⟨("v1").toList, some ("x").toList, none, none, none⟩,
      ⟨("v1").toList, some ("y").toList, none, none, none⟩] : List VideoRec).Perm
      [⟨("v1").toList, some ("y").toList, none, none, none⟩,
       ⟨("v1").toList, some ("x").toList, none, none, none⟩] ∧
    (insert_videos { channels := [], videos := [] } ("a").toList
        [⟨("v1").toList, some ("x").toList, none, none, none⟩,
         ⟨("v1").toList, some ("y").toList, none, none, none⟩] ("n").toList).2 ≠
      (insert_videos { channels := [], videos := [] } ("a").toList
        [⟨("v1").toList, some ("y").toList, none, none, none⟩,
         ⟨("v1").toList, some ("x").toList, none, none, none⟩] ("n").toList).2 :=
  ⟨List.Perm.swap _ _ _, by decide⟩

/-! Claim C10: sequences of store operations and the seen-flag lifecycle. -/

/-- StoreOp enumerates the mutating store operations of the module, with the
argument each one takes (candidate batches for `insert_videos`, the optional
channel scope for `mark_videos_seen`). -/
inductive StoreOp where
  | addChannel (channel_id title url : Str)
  | insertVideos (channel_id : Str) (batch : List VideoRec)
  | markSeen (channel_id : Option Str)
  | markChecked (channel_id : Str)
  | removeChannel (channel_id : Str)
deriving DecidableEq

/-- isRemoveChannel tests for the delete operation. -/
def StoreOp.isRemoveChannel : StoreOp → Bool
  | .removeChannel _ => true
  | _ => false

/-- runOp executes one store operation; the second component of the pair is
the `utc_now_iso()` timestamp of that call. -/
def runOp (p : StoreOp × Str) (s : Store) : Store :=
  match p.1 with
  | .addChannel cid t u => (add_channel s cid t u p.2).2
  | .insertVideos ch batch => (insert_videos s ch batch p.2).2
  | .markSeen c => mark_videos_seen s c
  | .markChecked c => mark_channel_checked s c p.2
  | .removeChannel c => remove_channel s c

/-- runOps executes a sequence of store operations in order. -/
def runOps : List (StoreOp × Str) → Store → Store
  | [], s => s
  | p :: rest, s => runOps rest (runOp p s)

/-- seenIn states that some row with the given video id is present and seen. -/
def seenIn (s : Store) (id : Str) : Prop :=
  ∃ v ∈ s.videos, v.video_id = id ∧ v.seen = true

lemma add_channel_videos (s : Store) (cid t u now : Str) :
    (add_channel s cid t u now).2.videos = s.videos := by
  unfold add_channel
  by_cases h : hasChannel s cid = true
  · rw [if_pos h]
  · rw [if_neg h]

lemma mark_videos_seen_cases (s : Store) (c : Option Str) :
    ∃ g : VideoRow → VideoRow,
      (mark_videos_seen s c).videos = s.videos.map g ∧
      (∀ v, g v = v ∨ (v.seen = false ∧ g v = { v with seen := true })) ∧
      (∀ v, v.seen = true → g v = v) := by
  unfold mark_videos_seen
  cases c with
  | none =>
    refine ⟨_, rfl, ?_, ?_⟩
    · intro v
      by_cases hv : v.seen = false
      · exact Or.inr ⟨hv, by rw [if_pos hv]⟩
      · exact Or.inl (by rw [if_neg hv])
    · intro v hv
      rw [if_neg (by simp [hv])]
  | some cid =>
    dsimp only
    by_cases hc : cid ≠ []
    · rw [if_pos hc]
      refine ⟨_, rfl, ?_, ?_⟩
      · intro v
        by_cases hv : v.channel_id = cid ∧ v.seen = false
        · exact Or.inr ⟨hv.2, by rw [if_pos hv]⟩
        · exact Or.inl (by rw [if_neg hv])
      · intro v hv
        rw [if_neg (by simp [hv])]
    · rw [if_neg hc]
      refine ⟨_, rfl, ?_, ?_⟩
      · intro v
        by_cases hv : v.seen = false
        · exact Or.inr ⟨hv, by rw [if_pos hv]⟩
        · exact Or.inl (by rw [if_neg hv])
      · intro v hv
        rw [if_neg (by simp [hv])]

lemma seenIn_runOp (p : StoreOp × Str) (s : Store) (id : Str)
    (hnr : p.1.isRemoveChannel = false) (hseen : seenIn s id) :
    seenIn (runOp p s) id := by
  obtain ⟨v, hv, hid, hs⟩ := hseen
  rcases p with ⟨op, now⟩
  cases op with
  | addChannel cid t u =>
    exact ⟨v, by rw [runOp, add_channel_videos]; exact hv, hid, hs⟩
  | insertVideos ch batch =>
    obtain ⟨Δ, h1, -, -, -, -, -⟩ := insertVideosLoop_spec ch now batch s
    refine ⟨v, ?_, hid, hs⟩
    show v ∈ (insert_videos s ch batch now).2.videos
    have hteq : insert_videos s ch batch now = insertVideosLoop ch now batch s := rfl
    rw [hteq, h1]
    exact List.mem_append_left Δ hv
  | markSeen c =>
    obtain ⟨g, hg, -, hgfix⟩ := mark_videos_seen_cases s c
    refine ⟨v, ?_, hid, hs⟩
    show v ∈ (mark_videos_seen s c).videos
    rw [hg]
    have : g v = v := hgfix v hs
    exact this ▸ List.mem_map_of_mem g hv
  | markChecked c =>
    exact ⟨v, hv, hid, hs⟩
  | removeChannel c =>
    exact absurd hnr (by simp [StoreOp.isRemoveChannel])

lemma seenIn_runOps (ops : List (StoreOp × Str)) :
    ∀ (s : Store) (id : Str), (∀ p ∈ ops, p.1.isRemoveChannel = false) →
      seenIn s id → seenIn (runOps ops s) id := by
  induction ops with
  | nil => intro s id _ h; exact h
  | cons p rest ih =>
    intro s id hnr h
    rw [runOps]
    exact ih (runOp p s) id (fun q hq => hnr q (List.mem_cons_of_mem p hq))
      (seenIn_runOp p s id (hnr p (List.mem_cons_self p rest)) h)

/-- Claim C10: the seen flag is monotone across store operations.  After any
single operation, every unseen row either was already present and unseen, or
is a brand-new id (no operation resets seen to 0); `insert_videos` only adds
rows with `seen = 0`; `mark_videos_seen` only returns rows unchanged or
flipped from unseen to seen; and over any sequence of operations containing
no `remove_channel`, a seen video stays present and seen — so once seen, a
video stays seen until its row is deleted by `remove_channel`. -/
theorem seen_flag_monotone (s : Store) :
    (∀ (p : StoreOp × Str) (v : VideoRow), v ∈ (runOp p s).videos →
      v.seen = false →
      (∃ w ∈ s.videos, w.video_id = v.video_id ∧ w.seen = false) ∨
      (∀ w ∈ s.videos, w.video_id ≠ v.video_id)) ∧
    (∀ (ch now : Str) (batch : List VideoRec) (v : VideoRow),
      v ∈ (insert_videos s ch batch now).2.videos →
      v ∈ s.videos ∨ v.seen = false) ∧
    (∀ (c : Option Str) (v : VideoRow), v ∈ (mark_videos_seen s c).videos →
      v ∈ s.videos ∨ ∃ w ∈ s.videos, w.seen = false ∧ v = { w with seen := true }) ∧
    (∀ (ops : List (StoreOp × Str)) (id : Str),
      (∀ p ∈ ops, p.1.isRemoveChannel = false) →
      seenIn s id → seenIn (runOps ops s) id) := by
  have hinsert : ∀ (ch now : Str) (batch : List VideoRec) (v : VideoRow),
      v ∈ (insert_videos s ch batch now).2.videos →
      v ∈ s.videos ∨ (v.seen = false ∧ hasVideo s v.video_id = false) := by
    intro ch now batch v hv
    obtain ⟨Δ, h1, -, -, h4, -, -⟩ := insertVideosLoop_spec ch now batch s
    have hteq : insert_videos s ch batch now = insertVideosLoop ch now batch s := rfl
    rw [hteq, h1] at hv
    rcases List.mem_append.mp hv with hin | hin
    · exact Or.inl hin
    · obtain ⟨ha, -, -, hd, -⟩ := h4 v hin
      exact Or.inr ⟨ha, hd⟩
  have hmark : ∀ (c : Option Str) (v : VideoRow), v ∈ (mark_videos_seen s c).videos →
      v ∈ s.videos ∨ ∃ w ∈ s.videos, w.seen = false ∧ v = { w with seen := true } := by
    intro c v hv
    obtain ⟨g, hg, hgcases, -⟩ := mark_videos_seen_cases s c
    rw [hg] at hv
    obtain ⟨w, hw, hgw⟩ := List.mem_map.mp hv
    rcases hgcases w with heq | ⟨hws, heq⟩
    · exact Or.inl (by rw [← hgw, heq]; exact hw)
    · exact Or.inr ⟨w, hw, hws, by rw [← hgw, heq]⟩
  refine ⟨?_, ?_, ?_, seenIn_runOps (s := s)⟩
  · intro p v hv hvseen
    rcases p with ⟨op, now⟩
    cases op with
    | addChannel cid t u =>
      rw [runOp, add_channel_videos] at hv
      exact Or.inl ⟨v, hv, rfl, hvseen⟩
    | insertVideos ch batch =>
      rcases hinsert ch now batch v hv with hin | ⟨-, hd⟩
      · exact Or.inl ⟨v, hin, rfl, hvseen⟩
      · refine Or.inr ?_
        intro w hw hcon
        unfold hasVideo at hd
        rw [List.any_eq_false] at hd
        have := hd w hw
        rw [hcon] at this
        simp at this
    | markSeen c =>
      rcases hmark c v hv with hin | ⟨w, hw, -, heq⟩
      · exact Or.inl ⟨v, hin, rfl, hvseen⟩
      · rw [heq] at hvseen
        exact absurd hvseen (by simp)
    | markChecked c =>
      exact Or.inl ⟨v, hv, rfl, hvseen⟩
    | removeChannel c =>
      rw [runOp] at hv
      have hv2 : v ∈ s.videos := List.mem_of_mem_filter hv
      exact Or.inl ⟨v, hv2, rfl, hvseen⟩
  · intro ch now batch v hv
    rcases hinsert ch now batch v hv with hin | ⟨ha, -⟩
    · exact Or.inl hin
    · exact Or.inr ha
  · exact hmark

/-- witnessRow10 is a concrete seen video row used by the claim C10 witness. -/
def witnessRow10 : VideoRow :=
  { video_id := ("v1").toList, channel_id := ("a").toList, title := [],
    published_at := [], description := [], url := [], added_at := [],
    seen := true }

/-- witnessStore10 is a concrete store used by the claim C10 witness. -/
def witnessStore10 : Store :=
  { channels := [], videos := [witnessRow10] }

/-- witnessOps10 is a concrete remove-free operation sequence used by the
claim C10 witness. -/
def witnessOps10 : List (StoreOp × Str) :=
  [(StoreOp.insertVideos (("a").toList)
      [⟨("v1").toList, some ("t").toList, none, none, none⟩], ("n1").toList),
   (StoreOp.markSeen (some (("b").toList)), ("n2").toList),
   (StoreOp.markChecked (("a").toList), ("n3").toList)]

/-- Claim C10 witness: a seen video stays seen across an insert of the same
id, a channel-scoped mark, and a mark-checked, none of which removes rows. -/
theorem seen_flag_monotone_witness :
    seenIn (runOps witnessOps10 witnessStore10) (("v1").toList) :=
  (seen_flag_monotone witnessStore10).2.2.2 witnessOps10 (("v1").toList)
    (by decide) ⟨witnessRow10, by simp [witnessStore10], rfl, rfl⟩

end VideoAgent
